import Mathlib

/-
  Verification development for the CCFarm content pipeline.

  This file gives a shallow embedding of the article scoring / caching /
  deduplication layer of the repository and proves the specification
  claims about it:

  * src/ccfarm/persistence/scores_storage.py   (ArticleScoresStore)
  * src/ccfarm/agents/scout/scorer.py          (ArticleScorer)
  * src/ccfarm/flows/debriefer_flow.py         (get_top_articles)
  * src/ccfarm/persistence/brief_storage.py    (BriefStorage)
  * src/ccfarm/persistence/script_storage.py   (ScriptStorage)
  * src/ccfarm/clients/news_client.py          (NewsAPIClient.get_everything)
  * src/ccfarm/agents/BaseAgent.py             (BaseAgent._call_llm_with_retry)
  * src/ccfarm/flows/news_scoring_flow.py      (send_notification)
  * src/orchestration_play/persistence/article_cache.py (ArticleCache)

  Modelling conventions:
  * datetime values are Int "ticks"; a timedelta (for instance
    timedelta(days=cache_days)) is an Int duration in the same ticks, so
    `datetime.now() - timedelta(days=d)` is `now - cacheDays`.
  * a Python dict (as used for article / brief / script documents) is an
    association list of string keys and PyVal values; dict.get returns
    PyVal.none for a missing key, like Python returns None.
  * a MongoDB collection is the list of its documents in natural order;
    find_one is the first document matching the filter, update_one with
    upsert=True replaces the first matching document or appends a new one,
    delete_many removes all matching documents.
  * exceptions are modelled with Except String; external calls (the LLM
    scorer, the webhook, the per-attempt outcome of a retried network
    call) are oracle functions supplied as parameters.
-/

/-! ## Python values and dictionaries -/

/-- Model of a Python value as stored in article / brief / script
documents: None, a string, an int (also standing in for datetimes as
ticks), a list, or a nested dict. -/
inductive PyVal where
  | none
  | str (s : String)
  | int (n : Int)
  | arr (xs : List PyVal)
  | pdict (kvs : List (String × PyVal))
  deriving Repr

/-- Structural equality of Python values (Python's == on these shapes). -/
def pyBeq : PyVal → PyVal → Bool
  | .none, .none => true
  | .str a, .str b => a == b
  | .int a, .int b => a == b
  | .arr xs, .arr ys => goList xs ys
  | .pdict xs, .pdict ys => goEntries xs ys
  | _, _ => false
where
  goList : List PyVal → List PyVal → Bool
    | [], [] => true
    | x :: xs, y :: ys => pyBeq x y && goList xs ys
    | _, _ => false
  goEntries : List (String × PyVal) → List (String × PyVal) → Bool
    | [], [] => true
    | (k, v) :: xs, (l, w) :: ys => k == l && pyBeq v w && goEntries xs ys
    | _, _ => false

/-- A Python dict: association list with string keys, first binding wins. -/
abbrev Dict := List (String × PyVal)

/-- Lookup of a key in a dict, `Option`-valued (key present or not). -/
def dictFind : Dict → String → Option PyVal
  | [], _ => Option.none
  | (k, v) :: tl, key => if k == key then some v else dictFind tl key

/-- Python's dict.get(key): the value, or None when the key is absent. -/
def dictGet (d : Dict) (key : String) : PyVal :=
  (dictFind d key).getD .none

/-- Python's truthiness test on a value: None, "", 0 and empty containers
are falsy, everything else truthy. -/
def truthy : PyVal → Bool
  | .none => false
  | .str s => !(s == "")
  | .int n => !(n == 0)
  | .arr xs => !xs.isEmpty
  | .pdict kvs => !kvs.isEmpty

/-- Coercion of a value to the string Python's str() would give on the
cases this pipeline uses (urls and titles are strings, scores ints). -/
def PyVal.asString : PyVal → String
  | .none => "None"
  | .str s => s
  | .int n => toString n
  | .arr _ => ""
  | .pdict _ => ""

/-- Integer view of a value (used for score / timestamp sort keys; the
documents this pipeline stores always carry ints in those fields). -/
def pyIntOf : PyVal → Int
  | .int n => n
  | _ => 0

/-- Python dict update as in a literal merge or d[k] = v: replace the
binding in place if the key is present, else append it at the end. -/
def dictSet (d : Dict) (key : String) (v : PyVal) : Dict :=
  match d with
  | [] => [(key, v)]
  | (k, w) :: tl => if k == key then (key, v) :: tl else (k, w) :: dictSet tl key v

/-! ## Stable sorting (Python's sorted)

Python's sorted is a stable sort; a stable sort with respect to a fixed
total preorder has a unique result, so we model it by stable insertion:
an element is inserted before the first element it may precede. For
sorted(xs, key=k, reverse=True) the "may precede" relation is
"has key not smaller than". -/

/-- Stable ordered insertion with respect to a boolean "goes before or
                                        ties" relation. -/
def ordInsert (le : α → α → Bool) (a : α) : List α → List α
  | [] => [a]
  | b :: l => if le a b then a :: b :: l else b :: ordInsert le a l

/-- Stable sort (Python's sorted with the comparison baked into le). -/
def pySorted (le : α → α → Bool) (l : List α) : List α :=
  l.foldr (ordInsert le) []

/-! ## Article scores and the scores store
(src/ccfarm/persistence/scores_storage.py,
 models from src/ccfarm/agents/digger/models.py) -/

/-- Pydantic model ArticleScore: an int comedy score and the one-line
reason for it. -/
structure ArticleScore where
  score : Int
  reason : String
  deriving Repr, DecidableEq

/-- A document of the article_scores collection, as written by
ArticleScoresStore.save_score: url, title, cached_at timestamp and the
score payload. -/
structure ScoreRecord where
  url : String
  title : String
  cached_at : Int
  score_result : ArticleScore
  deriving Repr, DecidableEq

/-- MongoDB update_one(filter on the key, set the whole document,
upsert=True): replace the first record with the same key, or append the
new record when no record has its key. -/
def upsertBy (key : α → String) (d : α) : List α → List α
  | [] => [d]
  | x :: l => if key x == key d then d :: l else x :: upsertBy key d l

/-- ArticleScoresStore.get_score: find_one on url with cached_at strictly
newer than now minus cache_days, parse its score_result; None when no
such record. -/
def get_score (cacheDays now : Int) (store : List ScoreRecord) (url : String) :
    Option ArticleScore :=
  (store.find? fun r => r.url == url && decide (now - cacheDays < r.cached_at)).map
    (·.score_result)

/-- ArticleScoresStore.save_score: upsert the full document for the url,
with cached_at = now. -/
def save_score (now : Int) (url title : String) (score_result : ArticleScore)
    (store : List ScoreRecord) : List ScoreRecord :=
  upsertBy (·.url) ⟨url, title, now, score_result⟩ store

/-- Outcome of the delete_many call inside cleanup_expired: either the
call completes, or the database raises a PyMongoError after having
removed only the first k matching documents. -/
inductive DbOutcome where
  | ok
  | errAfter (k : Nat)
  deriving Repr, DecidableEq

/-- Removal of the first k documents satisfying p (the part of a
delete_many that had happened when an error interrupts it). -/
def removeFirstMatching (p : α → Bool) : Nat → List α → List α
  | _, [] => []
  | 0, l => l
  | k + 1, x :: l => if p x then removeFirstMatching p k l else x :: removeFirstMatching p (k + 1) l

/-- The filter of ArticleScoresStore.cleanup_expired: cached_at strictly
older than now minus cache_days. -/
def isExpired (cacheDays now : Int) (r : ScoreRecord) : Bool :=
  decide (r.cached_at < now - cacheDays)

/-- ArticleScoresStore.cleanup_expired: delete_many of the expired
records, returning deleted_count; on a PyMongoError the except branch
returns 0 (with whatever prefix of the deletion had already happened). -/
def cleanup_expired (cacheDays now : Int) (outcome : DbOutcome)
    (store : List ScoreRecord) : Nat × List ScoreRecord :=
  match outcome with
  | .ok =>
      ((store.filter (isExpired cacheDays now)).length,
        store.filter fun r => !isExpired cacheDays now r)
  | .errAfter k => (0, removeFirstMatching (isExpired cacheDays now) k store)

/-! ## The article scorer (src/ccfarm/agents/scout/scorer.py)

The LLM call made by `_get_quick_score` through BaseAgent.generate_reply
is an external effect; it is modelled as an oracle from the article to
either a score or the message of the exception it raised. -/

/-- Oracle for the LLM scoring call on one article. -/
abbrev Scorer := Dict → Except String ArticleScore

/-- ArticleScorer._get_quick_score: return the LLM's score; on any
exception, return ArticleScore(score=0, reason="Error in scoring: ..."). -/
def get_quick_score (scorer : Scorer) (article : Dict) : ArticleScore :=
  match scorer article with
  | .ok s => s
  | .error e => ⟨0, "Error in scoring: " ++ e⟩

/-- State threaded through the loop of quick_score_articles: the scores
store, the scored_articles accumulator, and the list of articles for
which the LLM scorer was actually invoked. -/
structure ScoreRunState where
  store : List ScoreRecord
  scored : List (Dict × ArticleScore)
  llm_calls : List Dict
  deriving Repr

/-- One iteration of the loop of ArticleScorer.quick_score_articles:
skip the article when its title or description or url is falsy;
otherwise consult the cache, and on a miss invoke the scorer and
save the result under the url. -/
def quick_score_step (cacheDays now : Int) (scorer : Scorer)
    (st : ScoreRunState) (article : Dict) : ScoreRunState :=
  if !truthy (dictGet article "title") || !truthy (dictGet article "description") then
    st
  else if !truthy (dictGet article "url") then
    st
  else
    let url := (dictGet article "url").asString
    match get_score cacheDays now st.store url with
    | some s => { st with scored := st.scored ++ [(article, s)] }
    | Option.none =>
        let s := get_quick_score scorer article
        { store := save_score now url (dictGet article "title").asString s st.store
          scored := st.scored ++ [(article, s)]
          llm_calls := st.llm_calls ++ [article] }

/-- The loop of quick_score_articles over the input batch. -/
def score_run (cacheDays now : Int) (scorer : Scorer) (store : List ScoreRecord)
    (articles : List Dict) : ScoreRunState :=
  articles.foldl (quick_score_step cacheDays now scorer) ⟨store, [], []⟩

/-- Comparison used by sorted(scored_articles, key=lambda x: x[1].score,
reverse=True): a pair goes before another when its score is at least as
large. -/
def scoreDescLe (p q : Dict × ArticleScore) : Bool :=
  decide (q.2.score ≤ p.2.score)

/-- ArticleScorer.quick_score_articles: run the loop, then return the
accumulated pairs sorted by score, highest first. -/
def quick_score_articles (cacheDays now : Int) (scorer : Scorer)
    (store : List ScoreRecord) (articles : List Dict) :
    List (Dict × ArticleScore) :=
  pySorted scoreDescLe (score_run cacheDays now scorer store articles).scored

/-- Final step of ArticleScorer.dig_for_news, applied to the articles the
news client returned: embed each score into its article dict as
comedy_score and score_reason (the cleanup_expired call the method also
makes does not touch the returned list). -/
def dig_for_news (cacheDays now : Int) (scorer : Scorer)
    (store : List ScoreRecord) (articles : List Dict) : List Dict :=
  (quick_score_articles cacheDays now scorer store articles).map fun p =>
    dictSet (dictSet p.1 "comedy_score" (.int p.2.score)) "score_reason" (.str p.2.reason)

/-! ## Bounded retry with backoff (tenacity's @retry decorator)

NewsAPIClient.get_everything uses
  retry(stop=stop_after_attempt(3), wait=wait_exponential(multiplier=1, min=4, max=10))
and BaseAgent._call_llm_with_retry uses
  retry(stop=stop_after_attempt(3), wait=wait_random_exponential(multiplier=1, max=60)).
The outcome of each attempt is an oracle from the 1-based attempt number;
the random draw of wait_random_exponential is an oracle giving the
uniform sample, clamped to its admissible upper bound. -/

/-- tenacity wait_exponential(multiplier, min=lo, max=hi): after the n-th
failed attempt wait max(lo, min(multiplier * 2^n, hi)) seconds. -/
def wait_exponential (multiplier lo hi : Nat) (attempt : Nat) : Nat :=
  max lo (min (multiplier * 2 ^ attempt) hi)

/-- tenacity wait_random_exponential(multiplier, max=hi): after the n-th
failed attempt wait a uniform draw from 0 to min(multiplier * 2^n, hi);
the draw is the oracle u, clamped to that bound. -/
def wait_random_exponential (u : Nat → Nat) (multiplier hi : Nat) (attempt : Nat) : Nat :=
  min (u attempt) (min (multiplier * 2 ^ attempt) hi)

/-- Trace of one run of a tenacity-retried call: its final result, how
many attempts were made, and the waits slept between attempts. -/
structure RetryRun (α : Type) where
  result : Except String α
  attempts_made : Nat
  waits : List Nat
  deriving Repr

/-- The retry loop: attempt number k with budget many attempts allowed;
a success returns at once, a failure either propagates (budget
exhausted) or waits and retries. -/
def retryGo (wait : Nat → Nat) (attempt : Nat → Except String α) :
    Nat → Nat → RetryRun α
  | _, 0 => ⟨.error "retry: zero attempts allowed", 0, []⟩
  | k, budget + 1 =>
    match attempt k with
    | .ok v => ⟨.ok v, 1, []⟩
    | .error e =>
        if budget = 0 then ⟨.error e, 1, []⟩
        else
          let rest := retryGo wait attempt (k + 1) budget
          ⟨rest.result, rest.attempts_made + 1, wait k :: rest.waits⟩

/-- tenacity retry(stop=stop_after_attempt(stopAfter), wait=wait): run the
loop starting from attempt 1. -/
def tenacity_retry (stopAfter : Nat) (wait : Nat → Nat)
    (attempt : Nat → Except String α) : RetryRun α :=
  retryGo wait attempt 1 stopAfter

/-- NewsAPIClient.get_everything as a retried call (the request itself is
the attempt oracle). -/
def get_everything (attempt : Nat → Except String α) : RetryRun α :=
  tenacity_retry 3 (wait_exponential 1 4 10) attempt

/-- BaseAgent._call_llm_with_retry as a retried call; u is the random
oracle of wait_random_exponential. -/
def call_llm_with_retry (u : Nat → Nat) (attempt : Nat → Except String α) : RetryRun α :=
  tenacity_retry 3 (wait_random_exponential u 1 60) attempt

/-! ## The notification task of the news scoring flow
(src/ccfarm/flows/news_scoring_flow.py, send_notification) -/

/-- Python d[key]: the value, or a KeyError when the key is absent. -/
def dictGetItem (d : Dict) (key : String) : Except String PyVal :=
  match dictFind d key with
  | some v => .ok v
  | Option.none => .error ("KeyError: " ++ key)

/-- One line of the notification body:
"idx. title - Score: score" built from article['title'] and
article['score'] (KeyError propagates). -/
def notificationLine (idx : Nat) (article : Dict) : Except String String := do
  let t ← dictGetItem article "title"
  let s ← dictGetItem article "score"
  pure (toString idx ++ ". " ++ t.asString ++ " - Score: " ++ s.asString)

/-- The message send_notification builds (empty-result message, or header
plus one line per article, articles enumerated from 1). -/
def notificationMessage (articles : List Dict) (query : String) : Except String String :=
  if articles.isEmpty then
    .ok ("News scoring complete: No articles met the threshold for query " ++ query)
  else do
    let lines ← articles.enum.mapM fun p => notificationLine (p.1 + 1) p.2
    pure ("News scoring complete: Found " ++ toString articles.length ++
      " articles with comedy potential for query " ++ query ++ "\n\n" ++
      String.intercalate "\n" lines)

/-- The body of the try block of send_notification: load the webhook
block, build the message, send it. The webhook type and both effects are
oracles. -/
def sendNotificationBody {W : Type} (loadBlock : Except String W)
    (notify : W → String → Except String Unit)
    (articles : List Dict) (query : String) : Except String Unit := do
  let wb ← loadBlock
  let msg ← notificationMessage articles query
  notify wb msg

/-- send_notification of the news scoring flow: the whole body is inside
try/except Exception, the except branch only logs, so every failure is
swallowed. -/
def send_notification {W : Type} (loadBlock : Except String W)
    (notify : W → String → Except String Unit)
    (articles : List Dict) (query : String) : Except String Unit :=
  match sendNotificationBody loadBlock notify articles query with
  | .ok _ => .ok ()
  | .error _ => .ok ()

/-- Tail of news_scoring_flow after process_news_articles: the flow sends
the notification and returns scored_articles. -/
def news_scoring_flow_tail {W : Type} (scored_articles : List Dict)
    (loadBlock : Except String W) (notify : W → String → Except String Unit)
    (query : String) : List Dict :=
  match send_notification loadBlock notify scored_articles query with
  | .ok _ => scored_articles
  | .error _ => scored_articles

/-! ## Brief storage and the debriefer flow
(src/ccfarm/persistence/brief_storage.py,
 src/ccfarm/flows/debriefer_flow.py,
 src/orchestration_play/persistence/article_cache.py) -/

/-- MongoDB equality filter on one field value: the document value equals
the filter value, or is an array containing it. -/
def mongoEqMatch (docVal filterVal : PyVal) : Bool :=
  pyBeq docVal filterVal ||
    (match docVal with
     | .arr xs => xs.any fun x => pyBeq x filterVal
     | _ => false)

/-- Does a document match the filter field: value (documents missing the
field do not match)? -/
def mongoMatches (d : Dict) (field : String) (v : PyVal) : Bool :=
  match dictFind d field with
  | some w => mongoEqMatch w v
  | Option.none => false

/-- Fold of a MongoDB $set document into an existing document: each given
field is set, all other fields (such as _id) are kept. -/
def dictSetMany (d : Dict) : Dict → Dict
  | [] => d
  | (k, v) :: tl => dictSetMany (dictSet d k v) tl

/-- MongoDB update_one({field: v}, {"$set": doc}, upsert=True) on a
collection of dict documents: $set into the first matching document, or
insert doc (with the server-generated _id prepended) when none matches. -/
def upsertDoc (field : String) (v : PyVal) (doc : Dict) (newId : String) :
    List Dict → List Dict
  | [] => [("_id", .str newId) :: doc]
  | d :: col =>
      if mongoMatches d field v then dictSetMany d doc :: col
      else d :: upsertDoc field v doc newId col

/-- BriefStorage.store_brief: upsert by article_id the document with
article_id, model_output, timestamp (and metadata when given). newId is
the ObjectId MongoDB would generate on an insert. -/
def store_brief (newId : String) (now : Int) (article_id : String)
    (model_output : PyVal) (metadata : Option Dict) (col : List Dict) : List Dict :=
  let document : Dict :=
    [("article_id", .str article_id), ("model_output", model_output),
      ("timestamp", .int now)] ++
      (match metadata with
       | some m => [("metadata", .pdict m)]
       | Option.none => [])
  upsertDoc "article_id" (.str article_id) document newId col

/-- Sort comparison by descending int field (newest / highest first). -/
def descIntFieldLe (field : String) (a b : Dict) : Bool :=
  decide (pyIntOf (dictGet b field) ≤ pyIntOf (dictGet a field))

/-- BriefStorage.get_all_briefs of the ccfarm persistence layer: all
briefs sorted by timestamp descending, at most limit of them, each
wrapped as the dict with keys doc and _id only. -/
def get_all_briefs (col : List Dict) (limit : Nat) : List Dict :=
  ((pySorted (descIntFieldLe "timestamp") col).take limit).map fun d =>
    [("doc", .pdict d), ("_id", .str (dictGet d "_id").asString)]

/-- ArticleCache.get_all_cached: the non-expired cache documents sorted
by score descending, _id converted to its string. -/
def get_all_cached (cacheDays now : Int) (col : List Dict) : List Dict :=
  (pySorted (descIntFieldLe "score") (col.filter fun d =>
      decide (now - cacheDays < pyIntOf (dictGet d "cached_at")))).map fun d =>
    dictSet d "_id" (.str (dictGet d "_id").asString)

/-- Sort key of get_top_articles: article.get('cached_at', datetime.min);
a missing (or non-datetime) value acts as the least possible key. -/
def cachedAtKey (d : Dict) : Option Int :=
  match dictGet d "cached_at" with
  | .int t => some t
  | _ => Option.none

/-- Descending comparison on optional keys, the missing key least. -/
def cachedAtDescLe (a b : Dict) : Bool :=
  match cachedAtKey a, cachedAtKey b with
  | Option.none, Option.none => true
  | Option.none, some _ => false
  | some _, Option.none => true
  | some x, some y => decide (y ≤ x)

/-- The set briefed_article_ids of get_top_articles: the truthy
article_id values of the briefs get_all_briefs(limit=1000) returned. -/
def briefedArticleIds (briefCol : List Dict) : List PyVal :=
  (get_all_briefs briefCol 1000).filterMap fun b =>
    let v := dictGet b "article_id"
    if truthy v then some v else Option.none

/-- Task get_top_articles of the debriefer flow: all cached articles
sorted by cached_at newest first; when reanalyze_existing is false the
articles whose _id is in briefed_article_ids are dropped; the first
limit articles are returned. -/
def get_top_articles (cacheDays now : Int) (cacheCol briefCol : List Dict)
    (limit : Nat) (reanalyze_existing : Bool) : List Dict :=
  let sorted_articles :=
    pySorted cachedAtDescLe (get_all_cached cacheDays now cacheCol)
  if reanalyze_existing then
    sorted_articles.take limit
  else
    let ids := briefedArticleIds briefCol
    (sorted_articles.filter fun a => !(ids.any fun i => pyBeq i (dictGet a "_id"))).take limit

/-! ## Script storage (src/ccfarm/persistence/script_storage.py) -/

/-- ScriptStorage.store_script: insert_one of the document with title,
script_data, source_articles and created_at; MongoDB generates newId. -/
def store_script (newId : String) (now : Int) (title : String)
    (script_data : PyVal) (source_articles : List String)
    (col : List Dict) : List Dict :=
  col ++ [("_id", .str newId) ::
    [("title", .str title), ("script_data", script_data),
      ("source_articles", .arr (source_articles.map .str)),
      ("created_at", .int now)]]

/-- ScriptStorage.get_scripts_by_source: find on the field
source_article (as the code spells it) equal to article_id, with _id
converted to its string. -/
def get_scripts_by_source (col : List Dict) (article_id : String) : List Dict :=
  (col.filter fun d => mongoMatches d "source_article" (.str article_id)).map fun d =>
    dictSet d "_id" (.str (dictGet d "_id").asString)

/-! ## The orchestration_play ArticleCache.cache_score
(src/orchestration_play/persistence/article_cache.py) -/

/-- A document of the collection ArticleCache writes: url, title, the
flat score and reason, and cached_at. -/
structure CacheRecord where
  url : String
  title : String
  score : Int
  reason : String
  cached_at : Int
  deriving Repr, DecidableEq

/-- ArticleCache.cache_score: upsert by url of the full document with
cached_at = now. -/
def cache_score (now : Int) (url title : String) (score : Int) (reason : String)
    (store : List CacheRecord) : List CacheRecord :=
  upsertBy (·.url) ⟨url, title, score, reason, now⟩ store

/-- One save_score operation (its now, url, title and payload). -/
structure SaveOp where
  now : Int
  url : String
  title : String
  score_result : ArticleScore

/-- A sequence of save_score operations applied from the given store. -/
def applySaveOps (store : List ScoreRecord) (ops : List SaveOp) : List ScoreRecord :=
  ops.foldl (fun st op => save_score op.now op.url op.title op.score_result st) store

/-- One cache_score operation. -/
structure CacheOp where
  now : Int
  url : String
  title : String
  score : Int
  reason : String

/-- A sequence of cache_score operations applied from the given store. -/
def applyCacheOps (store : List CacheRecord) (ops : List CacheOp) : List CacheRecord :=
  ops.foldl (fun st op => cache_score op.now op.url op.title op.score op.reason st) store

/-! ## Helper lemmas -/

/-- Membership in an ordered insertion. -/
theorem mem_ordInsert (le : α → α → Bool) (a : α) (l : List α) (x : α) :
    x ∈ ordInsert le a l ↔ x = a ∨ x ∈ l := by
  induction l with
  | nil => simp [ordInsert]
  | cons b tl ih =>
    by_cases h : le a b
    · simp [ordInsert, h]
    · simp [ordInsert, h, ih]
      tauto

/-- Ordered insertion into a sorted list stays sorted, for a total and
transitive boolean relation. -/
theorem pairwise_ordInsert (le : α → α → Bool)
    (htrans : ∀ a b c, le a b = true → le b c = true → le a c = true)
    (htot : ∀ a b, le a b = true ∨ le b a = true)
    (a : α) (l : List α) (h : l.Pairwise (le · · = true)) :
    (ordInsert le a l).Pairwise (le · · = true) := by
  induction l with
  | nil => simp [ordInsert]
  | cons b tl ih =>
    rcases List.pairwise_cons.mp h with ⟨hb, htl⟩
    by_cases hab : le a b = true
    · rw [ordInsert, if_pos hab]
      refine List.pairwise_cons.mpr ⟨?_, h⟩
      intro x hx
      rcases List.mem_cons.mp hx with hx | hx
      · exact hx ▸ hab
      · exact htrans a b x hab (hb x hx)
    · have hba : le b a = true := (htot a b).resolve_left hab
      rw [ordInsert, if_neg hab]
      refine List.pairwise_cons.mpr ⟨?_, ih htl⟩
      intro x hx
      rcases (mem_ordInsert le a tl x).mp hx with hx | hx
      · exact hx ▸ hba
      · exact hb x hx

/-- Membership in pySorted. -/
theorem mem_pySorted (le : α → α → Bool) (l : List α) (x : α) :
    x ∈ pySorted le l ↔ x ∈ l := by
  induction l with
  | nil => simp [pySorted]
  | cons b tl ih =>
    show x ∈ ordInsert le b (pySorted le tl) ↔ _
    rw [mem_ordInsert, List.mem_cons, ih]

/-- pySorted sorts, for a total and transitive boolean relation. -/
theorem pairwise_pySorted (le : α → α → Bool)
    (htrans : ∀ a b c, le a b = true → le b c = true → le a c = true)
    (htot : ∀ a b, le a b = true ∨ le b a = true)
    (l : List α) : (pySorted le l).Pairwise (le · · = true) := by
  induction l with
  | nil => simp [pySorted]
  | cons b tl ih => exact pairwise_ordInsert le htrans htot b (pySorted le tl) ih

/-- The keys after an upsert: unchanged when the key was present, the new
key appended when it was not. -/
theorem upsertBy_map_key (key : α → String) (d : α) (l : List α) :
    (upsertBy key d l).map key =
      if l.any (fun x => key x == key d) then l.map key else l.map key ++ [key d] := by
  induction l with
  | nil => simp [upsertBy]
  | cons x tl ih =>
    by_cases h : key x == key d
    · have hx : key x = key d := by simpa using h
      simp [upsertBy, h, hx]
    · simp only [upsertBy, h, if_neg, Bool.false_eq_true, not_false_iff, List.map_cons,
        List.any_cons, Bool.false_or, ih]
      split <;> simp

/-- An upsert preserves key uniqueness. -/
theorem upsertBy_nodup (key : α → String) (d : α) (l : List α)
    (h : (l.map key).Nodup) : ((upsertBy key d l).map key).Nodup := by
  rw [upsertBy_map_key]
  split
  · exact h
  · next hany =>
    rw [List.any_eq_true] at hany
    push_neg at hany
    have hnotin : key d ∉ l.map key := by
      rw [List.mem_map]
      rintro ⟨x, hx, hk⟩
      exact absurd (by simpa using hk) (by simpa using hany x hx)
    simp [List.nodup_append, h, hnotin]

/-- When the keys are unique and the key is already present, an upsert
replaces the one record with that key in place. -/
theorem upsertBy_replace (key : α → String) (d : α) (l : List α)
    (hnd : (l.map key).Nodup) (r : α) (hr : r ∈ l) (hk : key r = key d) :
    upsertBy key d l = l.map fun x => if key x = key d then d else x := by
  induction l with
  | nil => cases hr
  | cons x tl ih =>
    rcases List.map_cons key x tl ▸ hnd with _ | ⟨hx, htl⟩
    by_cases h : key x == key d
    · have hxd : key x = key d := by simpa using h
      rw [upsertBy, if_pos h, List.map_cons, if_pos hxd]
      have : ∀ y ∈ tl, (if key y = key d then d else y) = y := by
        intro y hy
        rw [if_neg]
        intro hyd
        exact hx (key y) (List.mem_map_of_mem key hy) (by rw [hyd, ← hxd])
      rw [List.map_congr_left this]
      simp
    · have hxd : ¬ key x = key d := by simpa using h
      have hrtl : r ∈ tl := by
        rcases List.mem_cons.mp hr with h1 | h1
        · exact absurd (h1 ▸ hk) hxd
        · exact h1
      rw [upsertBy, if_neg (by simpa using h), List.map_cons, if_neg hxd,
        ih htl hrtl]

/-- get_score is None exactly when every record for the url has
cached_at not strictly newer than the cutoff now minus cache_days. -/
theorem get_score_eq_none_iff (cacheDays now : Int) (store : List ScoreRecord)
    (url : String) :
    get_score cacheDays now store url = Option.none ↔
      ∀ r ∈ store, r.url = url → r.cached_at ≤ now - cacheDays := by
  unfold get_score
  rw [Option.map_eq_none', List.find?_eq_none]
  constructor
  · intro h r hr hurl
    have := h r hr
    simp [hurl] at this
    omega
  · intro h r hr
    by_cases hurl : r.url = url
    · have := h r hr hurl
      simp [hurl]
      omega
    · simp [hurl]

/-- Reading back the url just saved: the upserted record is the first
one with that url, so get_score returns its payload whenever the reading
time still lies within the freshness window of the new cached_at. -/
theorem get_score_after_save (cacheDays now now2 : Int) (url title : String)
    (s : ArticleScore) (store : List ScoreRecord)
    (hfresh : now2 - cacheDays < now) :
    get_score cacheDays now2 (save_score now url title s store) url = some s := by
  induction store with
  | nil =>
    simp [save_score, upsertBy, get_score, List.find?, hfresh]
  | cons r tl ih =>
    rw [save_score, upsertBy]
    by_cases h : r.url == url
    · rw [if_pos (by simpa using h)]
      simp [get_score, List.find?, hfresh]
    · rw [if_neg (by simpa using h)]
      have step : get_score cacheDays now2
          (r :: upsertBy (·.url) ⟨url, title, now, s⟩ tl) url =
          get_score cacheDays now2 (upsertBy (·.url) ⟨url, title, now, s⟩ tl) url := by
        simp [get_score, List.find?, h]
      rw [step]
      exact ih

/-- An interrupted delete_many only removes documents matching its
filter: the survivors that do not match are exactly those of the
original list. -/
theorem filter_removeFirstMatching (p : α → Bool) (k : Nat) (l : List α) :
    (removeFirstMatching p k l).filter (fun x => !p x) = l.filter (fun x => !p x) := by
  induction l generalizing k with
  | nil => cases k <;> rfl
  | cons x tl ih =>
    cases k with
    | zero => rfl
    | succ k =>
      by_cases h : p x
      · rw [removeFirstMatching, if_pos h, ih, List.filter_cons, if_neg (by simp [h])]
      · rw [removeFirstMatching, if_neg h, List.filter_cons, List.filter_cons,
          if_pos (by simp [h]), if_pos (by simp [h]), ih]

/-- An interrupted delete_many does not add or reorder documents. -/
theorem removeFirstMatching_sublist (p : α → Bool) (k : Nat) (l : List α) :
    (removeFirstMatching p k l).Sublist l := by
  induction l generalizing k with
  | nil => cases k <;> simp [removeFirstMatching]
  | cons x tl ih =>
    cases k with
    | zero => simp [removeFirstMatching]
    | succ k =>
      by_cases h : p x
      · rw [removeFirstMatching, if_pos h]
        exact (ih k).cons x
      · rw [removeFirstMatching, if_neg h]
        exact (ih (k + 1)).cons₂ x

/-- Looking up the key just set. -/
theorem dictFind_dictSet_self (d : Dict) (key : String) (v : PyVal) :
    dictFind (dictSet d key v) key = some v := by
  induction d with
  | nil => simp [dictSet, dictFind]
  | cons kv tl ih =>
    obtain ⟨k, w⟩ := kv
    by_cases h : k == key
    · simp [dictSet, h, dictFind]
    · simp [dictSet, h, dictFind, ih]

/-- Looking up another key after a set. -/
theorem dictFind_dictSet_ne (d : Dict) (key key2 : String) (v : PyVal)
    (h : key2 ≠ key) : dictFind (dictSet d key v) key2 = dictFind d key2 := by
  have hne : ¬ key = key2 := fun hh => h hh.symm
  induction d with
  | nil => simp [dictSet, dictFind, hne]
  | cons kv tl ih =>
    obtain ⟨k, w⟩ := kv
    by_cases hk : k == key
    · have hkey : k = key := by simpa using hk
      simp [dictSet, hk, dictFind, hkey, hne]
    · simp [dictSet, hk, dictFind, ih]

/-- An article with a falsy title, description or url leaves the loop
state untouched. -/
theorem quick_score_step_skip (cacheDays now : Int) (scorer : Scorer)
    (st : ScoreRunState) (a : Dict)
    (h : truthy (dictGet a "title") = false ∨ truthy (dictGet a "description") = false ∨
      truthy (dictGet a "url") = false) :
    quick_score_step cacheDays now scorer st a = st := by
  unfold quick_score_step
  rcases h with h | h | h <;> simp [h]

/-- Splitting the batch of a scoring run. -/
theorem score_run_append (cacheDays now : Int) (scorer : Scorer)
    (store : List ScoreRecord) (l1 l2 : List Dict) :
    score_run cacheDays now scorer store (l1 ++ l2) =
      l2.foldl (quick_score_step cacheDays now scorer)
        (score_run cacheDays now scorer store l1) := by
  simp [score_run, List.foldl_append]

/-- A sequence of save_score calls preserves url uniqueness. -/
theorem applySaveOps_nodup (store : List ScoreRecord) (ops : List SaveOp)
    (h : (store.map (·.url)).Nodup) :
    ((applySaveOps store ops).map (·.url)).Nodup := by
  induction ops generalizing store with
  | nil => exact h
  | cons op tl ih => exact ih _ (upsertBy_nodup _ _ _ h)

/-- A sequence of cache_score calls preserves url uniqueness. -/
theorem applyCacheOps_nodup (store : List CacheRecord) (ops : List CacheOp)
    (h : (store.map (·.url)).Nodup) :
    ((applyCacheOps store ops).map (·.url)).Nodup := by
  induction ops generalizing store with
  | nil => exact h
  | cons op tl ih => exact ih _ (upsertBy_nodup _ _ _ h)

/-! ## The claims -/

/-- C1: cache-aside scoring with time-to-live. For an article with
truthy url, title and description, the loop body first consults the
store: a fresh record means its stored score is appended for the article
with no LLM call and no store write; no fresh record means the scorer is
invoked and its result upserted under the url. get_score is None exactly
when the record is absent or its cached_at is not strictly newer than
the cutoff; and the list quick_score_articles returns holds exactly the
pairs the loop accumulated. -/
theorem spec_c1_cache_aside (cacheDays now : Int) (scorer : Scorer)
    (st : ScoreRunState) (a : Dict)
    (ht : truthy (dictGet a "title") = true)
    (hd : truthy (dictGet a "description") = true)
    (hu : truthy (dictGet a "url") = true) :
    (∀ s, get_score cacheDays now st.store (dictGet a "url").asString = some s →
        quick_score_step cacheDays now scorer st a =
          { st with scored := st.scored ++ [(a, s)] })
    ∧ (get_score cacheDays now st.store (dictGet a "url").asString = Option.none →
        quick_score_step cacheDays now scorer st a =
          { store := save_score now (dictGet a "url").asString
              (dictGet a "title").asString (get_quick_score scorer a) st.store
            scored := st.scored ++ [(a, get_quick_score scorer a)]
            llm_calls := st.llm_calls ++ [a] })
    ∧ (get_score cacheDays now st.store (dictGet a "url").asString = Option.none ↔
        ∀ r ∈ st.store, r.url = (dictGet a "url").asString →
          r.cached_at ≤ now - cacheDays)
    ∧ ∀ (articles : List Dict) (store0 : List ScoreRecord) (p : Dict × ArticleScore),
        p ∈ quick_score_articles cacheDays now scorer store0 articles ↔
          p ∈ (score_run cacheDays now scorer store0 articles).scored := by
  refine ⟨?_, ?_, get_score_eq_none_iff .., fun articles store0 p => mem_pySorted ..⟩
  · intro s hs
    simp [quick_score_step, ht, hd, hu, hs]
  · intro hnone
    simp [quick_score_step, ht, hd, hu, hnone]

/-- Witness for C1 at a concrete article over the empty store. -/
theorem spec_c1_cache_aside_witness :
    get_score 7 100 ([] : List ScoreRecord) "u" = Option.none ↔
      ∀ r ∈ ([] : List ScoreRecord), r.url = "u" → r.cached_at ≤ 100 - 7 :=
  (spec_c1_cache_aside 7 100 (fun _ => .ok ⟨5, "ok"⟩) ⟨[], [], []⟩
    [("title", .str "t"), ("description", .str "d"), ("url", .str "u")]
    rfl rfl rfl).2.2.1

/-- C6: an article lacking a truthy title, description or url is skipped
entirely: the run over the batch with it equals the run over the batch
without it — same returned list, same final store, same LLM calls — and
the remaining articles are still processed. -/
theorem spec_c6_skip_missing_fields (cacheDays now : Int) (scorer : Scorer)
    (store : List ScoreRecord) (pre post : List Dict) (bad : Dict)
    (h : truthy (dictGet bad "title") = false ∨ truthy (dictGet bad "description") = false ∨
      truthy (dictGet bad "url") = false) :
    quick_score_articles cacheDays now scorer store (pre ++ bad :: post) =
      quick_score_articles cacheDays now scorer store (pre ++ post)
    ∧ score_run cacheDays now scorer store (pre ++ bad :: post) =
      score_run cacheDays now scorer store (pre ++ post) := by
  have hrun : score_run cacheDays now scorer store (pre ++ bad :: post) =
      score_run cacheDays now scorer store (pre ++ post) := by
    rw [score_run_append, score_run_append, List.foldl_cons,
      quick_score_step_skip cacheDays now scorer _ bad h]
  exact ⟨by rw [quick_score_articles, quick_score_articles, hrun], hrun⟩

/-- Witness for C6: an article with only a title is dropped from a
one-article batch. -/
theorem spec_c6_skip_missing_fields_witness :
    quick_score_articles 7 100 (fun _ => .ok ⟨5, "ok"⟩) [] ([] ++ [("title", PyVal.str "t")] :: []) =
      quick_score_articles 7 100 (fun _ => .ok ⟨5, "ok"⟩) [] ([] ++ [])
    ∧ score_run 7 100 (fun _ => .ok ⟨5, "ok"⟩) [] ([] ++ [("title", PyVal.str "t")] :: []) =
      score_run 7 100 (fun _ => .ok ⟨5, "ok"⟩) [] ([] ++ []) :=
  spec_c6_skip_missing_fields 7 100 (fun _ => .ok ⟨5, "ok"⟩) [] [] []
    [("title", PyVal.str "t")] (Or.inr (Or.inl rfl))

/-- C9: when the LLM call on an uncached article fails, _get_quick_score
turns the exception into ArticleScore(score=0), the loop saves that zero
score like a genuine one, and at any later time still inside the
freshness window get_score returns the cached zero score, so running the
scorer again on the same article makes no further LLM call. -/
theorem spec_c9_error_score_cached (cacheDays now now2 : Int)
    (scorer scorer2 : Scorer) (st : ScoreRunState) (a : Dict) (e : String)
    (ht : truthy (dictGet a "title") = true)
    (hd : truthy (dictGet a "description") = true)
    (hu : truthy (dictGet a "url") = true)
    (herr : scorer a = .error e)
    (hmiss : get_score cacheDays now st.store (dictGet a "url").asString = Option.none)
    (hfresh : now2 - cacheDays < now) :
    get_quick_score scorer a = ⟨0, "Error in scoring: " ++ e⟩
    ∧ (quick_score_step cacheDays now scorer st a).scored =
        st.scored ++ [(a, ⟨0, "Error in scoring: " ++ e⟩)]
    ∧ (quick_score_step cacheDays now scorer st a).store =
        save_score now (dictGet a "url").asString (dictGet a "title").asString
          ⟨0, "Error in scoring: " ++ e⟩ st.store
    ∧ get_score cacheDays now2 (quick_score_step cacheDays now scorer st a).store
        (dictGet a "url").asString = some ⟨0, "Error in scoring: " ++ e⟩
    ∧ quick_score_step cacheDays now2 scorer2
        ⟨(quick_score_step cacheDays now scorer st a).store, [], []⟩ a =
        ⟨(quick_score_step cacheDays now scorer st a).store,
          [(a, ⟨0, "Error in scoring: " ++ e⟩)], []⟩ := by
  have hq : get_quick_score scorer a = ⟨0, "Error in scoring: " ++ e⟩ := by
    simp [get_quick_score, herr]
  have hstep : quick_score_step cacheDays now scorer st a =
      { store := save_score now (dictGet a "url").asString
          (dictGet a "title").asString ⟨0, "Error in scoring: " ++ e⟩ st.store
        scored := st.scored ++ [(a, ⟨0, "Error in scoring: " ++ e⟩)]
        llm_calls := st.llm_calls ++ [a] } := by
    simp [quick_score_step, ht, hd, hu, hmiss, hq]
  have hget : get_score cacheDays now2 (quick_score_step cacheDays now scorer st a).store
      (dictGet a "url").asString = some ⟨0, "Error in scoring: " ++ e⟩ := by
    rw [hstep]
    exact get_score_after_save cacheDays now now2 _ _ _ st.store hfresh
  refine ⟨hq, by rw [hstep], by rw [hstep], hget, ?_⟩
  generalize (quick_score_step cacheDays now scorer st a).store = S at hget ⊢
  simp [quick_score_step, ht, hd, hu, hget]

/-- Witness for C9: a failing scorer on a fresh article, re-read five
ticks later inside a seven-tick window. -/
theorem spec_c9_error_score_cached_witness :
    get_quick_score (fun _ => .error "boom")
        [("title", .str "t"), ("description", .str "d"), ("url", .str "u")] =
      ⟨0, "Error in scoring: " ++ "boom"⟩
    ∧ (quick_score_step 7 100 (fun _ => .error "boom") ⟨[], [], []⟩
        [("title", .str "t"), ("description", .str "d"), ("url", .str "u")]).scored =
      [] ++ [([("title", .str "t"), ("description", .str "d"), ("url", .str "u")],
        ⟨0, "Error in scoring: " ++ "boom"⟩)]
    ∧ (quick_score_step 7 100 (fun _ => .error "boom") ⟨[], [], []⟩
        [("title", .str "t"), ("description", .str "d"), ("url", .str "u")]).store =
      save_score 100 (dictGet [("title", .str "t"), ("description", .str "d"),
          ("url", .str "u")] "url").asString
        (dictGet [("title", .str "t"), ("description", .str "d"),
          ("url", .str "u")] "title").asString
        ⟨0, "Error in scoring: " ++ "boom"⟩ []
    ∧ get_score 7 105 (quick_score_step 7 100 (fun _ => .error "boom") ⟨[], [], []⟩
        [("title", .str "t"), ("description", .str "d"), ("url", .str "u")]).store
        (dictGet [("title", .str "t"), ("description", .str "d"),
          ("url", .str "u")] "url").asString =
      some ⟨0, "Error in scoring: " ++ "boom"⟩
    ∧ quick_score_step 7 105 (fun _ => .ok ⟨9, "fine"⟩)
        ⟨(quick_score_step 7 100 (fun _ => .error "boom") ⟨[], [], []⟩
          [("title", .str "t"), ("description", .str "d"), ("url", .str "u")]).store, [], []⟩
        [("title", .str "t"), ("description", .str "d"), ("url", .str "u")] =
      ⟨(quick_score_step 7 100 (fun _ => .error "boom") ⟨[], [], []⟩
          [("title", .str "t"), ("description", .str "d"), ("url", .str "u")]).store,
        [([("title", .str "t"), ("description", .str "d"), ("url", .str "u")],
          ⟨0, "Error in scoring: " ++ "boom"⟩)], []⟩ :=
  spec_c9_error_score_cached 7 100 105 (fun _ => .error "boom") (fun _ => .ok ⟨9, "fine"⟩)
    ⟨[], [], []⟩ [("title", .str "t"), ("description", .str "d"), ("url", .str "u")]
    "boom" rfl rfl rfl rfl rfl (by decide)

/-- C3: one score per URL. Any sequence of save_score operations from
the empty store (and any sequence of cache_score operations from the
empty cache) yields a store whose urls are pairwise distinct; and when a
url already has a record, save_score replaces that record's fields in
place — same length, the record swapped for the new document. -/
theorem spec_c3_one_score_per_url :
    (∀ ops : List SaveOp, ((applySaveOps [] ops).map (·.url)).Nodup)
    ∧ (∀ ops : List CacheOp, ((applyCacheOps [] ops).map (·.url)).Nodup)
    ∧ ∀ (store : List ScoreRecord) (now : Int) (url title : String)
        (s : ArticleScore) (r : ScoreRecord),
        (store.map (·.url)).Nodup → r ∈ store → r.url = url →
        save_score now url title s store =
          store.map (fun x => if x.url = url then ⟨url, title, now, s⟩ else x)
        ∧ (save_score now url title s store).length = store.length := by
  refine ⟨fun ops => applySaveOps_nodup [] ops (by simp),
    fun ops => applyCacheOps_nodup [] ops (by simp), ?_⟩
  intro store now url title s r hnd hr hurl
  have heq := upsertBy_replace (·.url) ⟨url, title, now, s⟩ store hnd r hr hurl
  exact ⟨heq, by rw [save_score, heq, List.length_map]⟩

/-- Witness for C3: overwriting the one record of a one-record store. -/
theorem spec_c3_one_score_per_url_witness :
    save_score 5 "u" "t1" ⟨2, "r1"⟩ [⟨"u", "t0", 0, ⟨1, "r0"⟩⟩] =
      [⟨"u", "t0", 0, ⟨1, "r0"⟩⟩].map
        (fun x => if x.url = "u" then ⟨"u", "t1", 5, ⟨2, "r1"⟩⟩ else x)
    ∧ (save_score 5 "u" "t1" ⟨2, "r1"⟩ [⟨"u", "t0", 0, ⟨1, "r0"⟩⟩]).length =
      ([⟨"u", "t0", 0, ⟨1, "r0"⟩⟩] : List ScoreRecord).length :=
  spec_c3_one_score_per_url.2.2 [⟨"u", "t0", 0, ⟨1, "r0"⟩⟩] 5 "u" "t1" ⟨2, "r1"⟩
    ⟨"u", "t0", 0, ⟨1, "r0"⟩⟩ (by simp) (by simp) rfl

/-- C4: quick_score_articles returns its pairs in non-increasing score
order, and dig_for_news returns the same articles in that order with the
score embedded as comedy_score and the reason as score_reason, hence
also in non-increasing comedy_score order. -/
theorem spec_c4_ordering (cacheDays now : Int) (scorer : Scorer)
    (store : List ScoreRecord) (articles : List Dict) :
    (quick_score_articles cacheDays now scorer store articles).Pairwise
      (fun p q => q.2.score ≤ p.2.score)
    ∧ dig_for_news cacheDays now scorer store articles =
        (quick_score_articles cacheDays now scorer store articles).map (fun p =>
          dictSet (dictSet p.1 "comedy_score" (.int p.2.score)) "score_reason"
            (.str p.2.reason))
    ∧ (∀ p : Dict × ArticleScore,
        dictGet (dictSet (dictSet p.1 "comedy_score" (.int p.2.score)) "score_reason"
          (.str p.2.reason)) "comedy_score" = .int p.2.score
        ∧ dictGet (dictSet (dictSet p.1 "comedy_score" (.int p.2.score)) "score_reason"
          (.str p.2.reason)) "score_reason" = .str p.2.reason)
    ∧ (dig_for_news cacheDays now scorer store articles).Pairwise
        (fun d1 d2 => pyIntOf (dictGet d2 "comedy_score") ≤
          pyIntOf (dictGet d1 "comedy_score")) := by
  have hfields : ∀ p : Dict × ArticleScore,
      dictGet (dictSet (dictSet p.1 "comedy_score" (.int p.2.score)) "score_reason"
        (.str p.2.reason)) "comedy_score" = .int p.2.score
      ∧ dictGet (dictSet (dictSet p.1 "comedy_score" (.int p.2.score)) "score_reason"
        (.str p.2.reason)) "score_reason" = .str p.2.reason := by
    intro p
    constructor
    · rw [dictGet, dictFind_dictSet_ne _ _ _ _ (by decide), dictFind_dictSet_self]
      rfl
    · rw [dictGet, dictFind_dictSet_self]
      rfl
  have hsorted : (quick_score_articles cacheDays now scorer store articles).Pairwise
      (fun p q => q.2.score ≤ p.2.score) := by
    have h := pairwise_pySorted scoreDescLe
      (fun a b c hab hbc => by
        simp only [scoreDescLe, decide_eq_true_eq] at *
        omega)
      (fun a b => by
        simp only [scoreDescLe, decide_eq_true_eq]
        omega)
      (score_run cacheDays now scorer store articles).scored
    exact h.imp fun hpq => by simpa [scoreDescLe] using hpq
  refine ⟨hsorted, rfl, hfields, ?_⟩
  have hmap : dig_for_news cacheDays now scorer store articles =
      (quick_score_articles cacheDays now scorer store articles).map (fun p =>
        dictSet (dictSet p.1 "comedy_score" (.int p.2.score)) "score_reason"
          (.str p.2.reason)) := rfl
  rw [hmap]
  refine List.Pairwise.map _ ?_ hsorted
  intro p q hpq
  rw [(hfields p).1, (hfields q).1]
  simpa [pyIntOf] using hpq

/-- C5: cleanup_expired keeps exactly the records whose cached_at is not
strictly older than the cutoff, in their original order, and returns how
many expired records it deleted; when the database call errors after
deleting k documents, it returns 0, having removed only expired records
and left every non-expired record in place. -/
theorem spec_c5_cleanup_expired (cacheDays now : Int) (store : List ScoreRecord) :
    (∀ r : ScoreRecord, r ∈ (cleanup_expired cacheDays now .ok store).2 ↔
        r ∈ store ∧ isExpired cacheDays now r = false)
    ∧ (cleanup_expired cacheDays now .ok store).2.Sublist store
    ∧ (cleanup_expired cacheDays now .ok store).1 =
        (store.filter (isExpired cacheDays now)).length
    ∧ ∀ k : Nat,
        (cleanup_expired cacheDays now (.errAfter k) store).1 = 0
        ∧ (cleanup_expired cacheDays now (.errAfter k) store).2.filter
            (fun r => !isExpired cacheDays now r) =
          store.filter (fun r => !isExpired cacheDays now r)
        ∧ (cleanup_expired cacheDays now (.errAfter k) store).2.Sublist store := by
  refine ⟨?_, List.filter_sublist store, rfl, fun k =>
    ⟨rfl, filter_removeFirstMatching .., removeFirstMatching_sublist ..⟩⟩
  intro r
  simp [cleanup_expired, List.mem_filter]

/-- C7: both retried network calls make at most 3 attempts; when the
first three attempts all fail the run stops after exactly 3 attempts,
the last exception propagates, and the two waits slept in between follow
the corresponding exponential backoff policies. -/
theorem spec_c7_bounded_retry {α : Type} (attempt : Nat → Except String α)
    (u : Nat → Nat) (e1 e2 e3 : String)
    (h1 : attempt 1 = .error e1) (h2 : attempt 2 = .error e2)
    (h3 : attempt 3 = .error e3) :
    (∀ att : Nat → Except String α, (get_everything att).attempts_made ≤ 3
      ∧ (call_llm_with_retry u att).attempts_made ≤ 3)
    ∧ get_everything attempt =
        ⟨.error e3, 3, [wait_exponential 1 4 10 1, wait_exponential 1 4 10 2]⟩
    ∧ call_llm_with_retry u attempt =
        ⟨.error e3, 3,
          [wait_random_exponential u 1 60 1, wait_random_exponential u 1 60 2]⟩ := by
  refine ⟨?_, ?_, ?_⟩
  · intro att
    constructor <;>
    · rcases hh1 : att 1 with v | es <;>
        rcases hh2 : att 2 with v | es <;>
          rcases hh3 : att 3 with v | es <;>
            simp [get_everything, call_llm_with_retry, tenacity_retry, retryGo, hh1, hh2, hh3]
  · simp [get_everything, tenacity_retry, retryGo, h1, h2, h3]
  · simp [call_llm_with_retry, tenacity_retry, retryGo, h1, h2, h3]

/-- Witness for C7: every attempt fails with "boom". -/
theorem spec_c7_bounded_retry_witness :
    (∀ att : Nat → Except String Nat, (get_everything att).attempts_made ≤ 3
      ∧ (call_llm_with_retry (fun _ => 7) att).attempts_made ≤ 3)
    ∧ get_everything (fun _ => (.error "boom" : Except String Nat)) =
        ⟨.error "boom", 3, [wait_exponential 1 4 10 1, wait_exponential 1 4 10 2]⟩
    ∧ call_llm_with_retry (fun _ => 7) (fun _ => (.error "boom" : Except String Nat)) =
        ⟨.error "boom", 3,
          [wait_random_exponential (fun _ => 7) 1 60 1,
            wait_random_exponential (fun _ => 7) 1 60 2]⟩ :=
  spec_c7_bounded_retry (fun _ => (.error "boom" : Except String Nat)) (fun _ => 7)
    "boom" "boom" "boom" rfl rfl rfl

/-- C8: send_notification never raises — whatever the webhook loading
and the notify call do, it returns normally — and the article list the
flow returns does not depend on the notification's fate. -/
theorem spec_c8_notification_swallowed {W : Type} (loadBlock : Except String W)
    (notify : W → String → Except String Unit) (articles scored : List Dict)
    (query : String) :
    send_notification loadBlock notify articles query = .ok ()
    ∧ news_scoring_flow_tail scored loadBlock notify query = scored := by
  constructor
  · unfold send_notification
    split <;> rfl
  · unfold news_scoring_flow_tail send_notification
    split <;> rfl

/-- C2 (code bug): get_all_briefs wraps every stored brief under the key
doc, so the briefs it returns carry no top-level article_id; thus
briefed_article_ids is always empty, get_top_articles never filters
anything when reanalyze_existing is false, and a cached article whose
_id was already briefed by store_brief is still returned. The last
conjunct evaluates the failing input: one cached article with _id a1 and
one brief stored for a1, yet get_top_articles returns the article. -/
theorem spec_c2_dedup_never_filters :
    (∀ briefCol : List Dict, briefedArticleIds briefCol = [])
    ∧ (∀ (cacheDays now : Int) (cacheCol briefCol : List Dict) (limit : Nat),
        get_top_articles cacheDays now cacheCol briefCol limit false =
          (pySorted cachedAtDescLe (get_all_cached cacheDays now cacheCol)).take limit)
    ∧ get_top_articles 7 100
        [[("_id", .str "a1"), ("url", .str "u"), ("title", .str "T"),
          ("score", .int 5), ("reason", .str "r"), ("cached_at", .int 99)]]
        (store_brief "b1" 99 "a1" (.str "out") Option.none [])
        5 false =
      [[("_id", .str "a1"), ("url", .str "u"), ("title", .str "T"),
        ("score", .int 5), ("reason", .str "r"), ("cached_at", .int 99)]] := by
  have hids : ∀ briefCol : List Dict, briefedArticleIds briefCol = [] := by
    intro briefCol
    unfold briefedArticleIds get_all_briefs
    rw [List.filterMap_map]
    have : ∀ l : List Dict, l.filterMap
        ((fun b => if truthy (dictGet b "article_id") then some (dictGet b "article_id")
          else Option.none) ∘
          fun d => [("doc", .pdict d), ("_id", .str (dictGet d "_id").asString)]) = [] := by
      intro l
      induction l with
      | nil => rfl
      | cons d tl ih =>
        rw [List.filterMap_cons]
        have hnone : truthy (dictGet
            [("doc", PyVal.pdict d), ("_id", PyVal.str (dictGet d "_id").asString)]
            "article_id") = false := rfl
        simp only [Function.comp_apply, hnone, Bool.false_eq_true, if_false]
        exact ih
    exact this _
  refine ⟨hids, ?_, rfl⟩
  intro cacheDays now cacheCol briefCol limit
  unfold get_top_articles
  rw [hids]
  simp

/-- C10 (code bug): store_script records the source articles under the
field source_articles, but get_scripts_by_source queries the field
source_article, which no stored script has; so a script stored from
source article a1 contains a1 in its source_articles array, yet
get_scripts_by_source(a1) is empty — and in general a store_script
insertion never changes any get_scripts_by_source result. -/
theorem spec_c10_source_roundtrip_broken :
    store_script "s1" 50 "T" (.str "body") ["a1"] [] =
      [[("_id", .str "s1"), ("title", .str "T"), ("script_data", .str "body"),
        ("source_articles", .arr [.str "a1"]), ("created_at", .int 50)]]
    ∧ dictGet [("_id", .str "s1"), ("title", .str "T"), ("script_data", .str "body"),
        ("source_articles", .arr [.str "a1"]), ("created_at", .int 50)]
        "source_articles" = .arr [.str "a1"]
    ∧ get_scripts_by_source (store_script "s1" 50 "T" (.str "body") ["a1"] []) "a1" = []
    ∧ ∀ (newId : String) (now : Int) (title : String) (script_data : PyVal)
        (source_articles : List String) (col : List Dict) (article_id : String),
        get_scripts_by_source (store_script newId now title script_data source_articles col)
          article_id = get_scripts_by_source col article_id := by
  refine ⟨rfl, rfl, rfl, ?_⟩
  intro newId now title script_data source_articles col article_id
  unfold get_scripts_by_source store_script
  rw [List.filter_append]
  have hdoc : (List.filter
      (fun d => mongoMatches d "source_article" (.str article_id))
      [("_id", .str newId) ::
        [("title", .str title), ("script_data", script_data),
          ("source_articles", .arr (source_articles.map .str)),
          ("created_at", .int now)]]) = [] := by
    simp [List.filter, mongoMatches, dictFind]
  rw [hdoc, List.append_nil]
